import Mathlib

/-!
Verification of the chunked-upload core: the upload state machine
(`src/lib/upload-state.ts`), the upload orchestrator
(`src/lib/upload-orchestrator.ts`), the structural CSV validator
(`src/lib/csv-validator.ts`) and the column analyzer
(`src/lib/csv-analyzer.ts`), shallowly embedded in Lean.
-/

namespace LargeUpload

/-- `FileInfo` from `src/lib/upload-state.ts`: `{ name, size, type }`.
`size` is a byte count, modelled as `Nat` (the spec fixes it non-negative). -/
structure FileInfo where
  name : String
  size : Nat
  type : String
deriving DecidableEq, Repr

/-- `UploadState` from `src/lib/upload-state.ts`: the closed tagged union of
upload phases, one constructor per `phase` discriminant. -/
inductive UploadState where
  | idle
  | validating (file : FileInfo)
  | uploading (file : FileInfo) (sessionId : String)
      (bytesSent bytesTotal chunksCompleted chunksTotal : Nat)
  | finalizing (file : FileInfo) (sessionId : String)
  | done (sessionId : String)
  | error (message : String) (retryable : Bool)
      (file : Option FileInfo) (sessionId : Option String)
deriving DecidableEq, Repr

/-- `UploadEvent` from `src/lib/upload-state.ts`. -/
inductive UploadEvent where
  | fileSelected (file : FileInfo)
  | validationPassed (sessionId : String) (chunksTotal : Nat)
  | validationFailed (message : String)
  | chunkSent (chunkIndex : Nat) (bytesSent : Nat)
  | chunkFailed (chunkIndex : Nat) (message : String)
  | finalizeSuccess
  | finalizeFailed (message : String)
  | cancel
  | reset
deriving DecidableEq, Repr

/-- `initialState` from `src/lib/upload-state.ts`. -/
def initialState : UploadState := .idle

/-- `transition` from `src/lib/upload-state.ts`, the pure state machine.
The branch order mirrors the source: `RESET` first, then `CANCEL`, then
`FILE_SELECTED`, then the `switch` on the current phase. -/
def transition (state : UploadState) (event : UploadEvent) : UploadState :=
  match event with
  | .reset => .idle
  | .cancel =>
    match state with
    | .validating _ => .idle
    | .uploading _ _ _ _ _ _ => .idle
    | .finalizing _ _ => .idle
    | _ => state
  | .fileSelected file =>
    match state with
    | .idle => .validating file
    | .done _ => .validating file
    | .error _ _ _ _ => .validating file
    | _ => state
  | _ =>
    match state with
    | .validating file =>
      match event with
      | .validationPassed sessionId chunksTotal =>
          .uploading file sessionId 0 file.size 0 chunksTotal
      | .validationFailed message =>
          .error message false (some file) none
      | _ => state
    | .uploading file sessionId _bytesSent bytesTotal chunksCompleted chunksTotal =>
      match event with
      | .chunkSent _ bytesSent =>
        if chunksCompleted + 1 ≥ chunksTotal then
          .finalizing file sessionId
        else
          .uploading file sessionId bytesSent bytesTotal (chunksCompleted + 1) chunksTotal
      | .chunkFailed _ message =>
          .error message true (some file) (some sessionId)
      | _ => state
    | .finalizing file sessionId =>
      match event with
      | .finalizeSuccess => .done sessionId
      | .finalizeFailed message =>
          .error message true (some file) (some sessionId)
      | _ => state
    | _ => state

/-- The legal combinations of the transition table (§4.1 of the spec):
every `(state, event)` pair that the table lists as producing a phase
change (including the universal `Cancel`-from-active and `Reset` rows). -/
def legal (state : UploadState) (event : UploadEvent) : Bool :=
  match event with
  | .reset => true
  | .cancel =>
    match state with
    | .validating _ => true
    | .uploading _ _ _ _ _ _ => true
    | .finalizing _ _ => true
    | _ => false
  | .fileSelected _ =>
    match state with
    | .idle => true
    | .done _ => true
    | .error _ _ _ _ => true
    | _ => false
  | .validationPassed _ _ =>
    match state with
    | .validating _ => true
    | _ => false
  | .validationFailed _ =>
    match state with
    | .validating _ => true
    | _ => false
  | .chunkSent _ _ =>
    match state with
    | .uploading _ _ _ _ _ _ => true
    | _ => false
  | .chunkFailed _ _ =>
    match state with
    | .uploading _ _ _ _ _ _ => true
    | _ => false
  | .finalizeSuccess =>
    match state with
    | .finalizing _ _ => true
    | _ => false
  | .finalizeFailed _ =>
    match state with
    | .finalizing _ _ => true
    | _ => false

/-- Folding a sequence of events through `transition`, starting from a state.
Arbitrary-event reachability from `initialState` is
`applyEvents initialState es` for some list `es`. -/
def applyEvents (s : UploadState) (es : List UploadEvent) : UploadState :=
  es.foldl transition s

/-- C1: for every `(state, event)` pair outside the transition table,
`transition` returns the input state unchanged.  (Non-throwing is inherent:
`transition` is a total Lean function.) -/
theorem C1_transition_total_noop (s : UploadState) (e : UploadEvent)
    (h : legal s e = false) : transition s e = s := by
  cases e <;> cases s <;> simp_all [legal, transition]

/-- Witness for C1 at a concrete illegal pair: `Done` ignores `Cancel`. -/
theorem C1_transition_total_noop_witness :
    transition (.done "sess") .cancel = .done "sess" :=
  C1_transition_total_noop (.done "sess") .cancel (by decide)

/-- C2: on an `Uploading` state, a `ChunkSent` event moves to `Finalizing`
(with the same file and session id) when the incremented chunk count reaches
`chunksTotal`, and otherwise stays `Uploading` with `bytesSent` taken from
the event and `chunksCompleted` incremented. -/
theorem C2_chunk_sent_step (file : FileInfo) (sessionId : String)
    (bytesSent bytesTotal chunksCompleted chunksTotal chunkIndex b : Nat) :
    transition (.uploading file sessionId bytesSent bytesTotal chunksCompleted chunksTotal)
        (.chunkSent chunkIndex b) =
      if chunksCompleted + 1 ≥ chunksTotal then
        .finalizing file sessionId
      else
        .uploading file sessionId b bytesTotal (chunksCompleted + 1) chunksTotal := by
  rfl

/-- Reachability from `initialState` through `transition`, restricted to
event sequences in which every `ChunkSent` event applied to an `Uploading`
state carries `bytesSent` at most that state's `bytesTotal` — which is how
the orchestrator produces them (`bytesSent = endByte ≤ file.size`). -/
inductive ReachableBounded : UploadState → Prop where
  | init : ReachableBounded initialState
  | step (s : UploadState) (e : UploadEvent) (hs : ReachableBounded s)
      (hb : ∀ file sessionId bytesSent bytesTotal chunksCompleted chunksTotal chunkIndex b,
        s = .uploading file sessionId bytesSent bytesTotal chunksCompleted chunksTotal →
        e = .chunkSent chunkIndex b → b ≤ bytesTotal) :
      ReachableBounded (transition s e)

/-- The `Uploading` invariant of the spec's data model (§3): whenever the
state is `Uploading`, `0 ≤ bytesSent ≤ bytesTotal`, `0 ≤ chunksCompleted ≤
chunksTotal`, and `bytesTotal = file.size`; trivially true in other phases. -/
def uploadingInvariant : UploadState → Prop
  | .uploading file _sessionId bytesSent bytesTotal chunksCompleted chunksTotal =>
      0 ≤ bytesSent ∧ bytesSent ≤ bytesTotal ∧
      0 ≤ chunksCompleted ∧ chunksCompleted ≤ chunksTotal ∧
      bytesTotal = file.size
  | _ => True

/-- C3 counterexample: under arbitrary-event reachability (the claim's own
reading of "reachable from the initial Idle state through transition"), an
`Uploading` state with `bytesSent > bytesTotal` is reachable: a `CHUNK_SENT`
event carrying `bytesSent = 999` against a 10-byte file. -/
theorem C3_invariant_counterexample :
    applyEvents initialState
        [.fileSelected ⟨"a.csv", 10, "text/csv"⟩,
         .validationPassed "sess" 5,
         .chunkSent 0 999] =
      .uploading ⟨"a.csv", 10, "text/csv"⟩ "sess" 999 10 1 5 ∧
    ¬ (999 ≤ 10) := by
  decide

/-- C3 (amended): every `Uploading` state reachable from the initial `Idle`
state through `transition`, along event sequences whose `ChunkSent` events
carry `bytesSent ≤ bytesTotal` of the state they apply to (as the
orchestrator's events do), satisfies `0 ≤ bytesSent ≤ bytesTotal`,
`0 ≤ chunksCompleted ≤ chunksTotal` and `bytesTotal = file.size`. -/
theorem C3_uploading_invariant (s : UploadState) (hs : ReachableBounded s) :
    uploadingInvariant s := by
  induction hs with
  | init => simp [initialState, uploadingInvariant]
  | step s e _hs hb ih =>
    cases e with
    | chunkSent chunkIndex b =>
      cases s with
      | uploading f sid bs bt cc ct =>
        have hble : b ≤ bt := hb f sid bs bt cc ct chunkIndex b rfl rfl
        obtain ⟨-, -, -, hcc, hbt⟩ := ih
        by_cases hfin : cc + 1 ≥ ct
        · simp [transition, hfin, uploadingInvariant]
        · simp [transition, hfin, uploadingInvariant]
          exact ⟨hble, by omega, hbt⟩
      | idle => simp [transition, uploadingInvariant]
      | validating f => simp [transition, uploadingInvariant]
      | finalizing f sid => simp [transition, uploadingInvariant]
      | done sid => simp [transition, uploadingInvariant]
      | error m r f sid => simp [transition, uploadingInvariant]
    | validationPassed sid ct =>
      cases s <;> simp_all [transition, uploadingInvariant] <;> omega
    | fileSelected f =>
      cases s <;> simp_all [transition, uploadingInvariant] <;> omega
    | validationFailed m =>
      cases s <;> simp_all [transition, uploadingInvariant] <;> omega
    | chunkFailed chunkIndex m =>
      cases s <;> simp_all [transition, uploadingInvariant]
    | finalizeSuccess =>
      cases s <;> simp_all [transition, uploadingInvariant] <;> omega
    | finalizeFailed m =>
      cases s <;> simp_all [transition, uploadingInvariant] <;> omega
    | cancel =>
      cases s <;> simp_all [transition, uploadingInvariant]
    | reset =>
      cases s <;> simp_all [transition, uploadingInvariant]

/-- Witness for C3 (amended) at a concrete reachable `Uploading` state. -/
theorem C3_uploading_invariant_witness :
    uploadingInvariant (.uploading ⟨"a.csv", 10, "text/csv"⟩ "sess" 0 10 0 5) := by
  have h1 : ReachableBounded (.validating ⟨"a.csv", 10, "text/csv"⟩) := by
    have := ReachableBounded.step initialState
      (.fileSelected ⟨"a.csv", 10, "text/csv"⟩) ReachableBounded.init
      (by intro _ _ _ _ _ _ _ _ h; simp [initialState] at h)
    simpa [transition, initialState] using this
  have h2 : ReachableBounded (.uploading ⟨"a.csv", 10, "text/csv"⟩ "sess" 0 10 0 5) := by
    have := ReachableBounded.step (.validating ⟨"a.csv", 10, "text/csv"⟩)
      (.validationPassed "sess" 5) h1
      (by intro _ _ _ _ _ _ _ _ h; simp at h)
    simpa [transition] using this
  exact C3_uploading_invariant _ h2

/-! ## Upload orchestrator (`src/lib/upload-orchestrator.ts`)

`createOrchestrator(init, sendChunk, finalize, config).start(file)` is an
async driver.  It is embedded as a deterministic function of the outcomes of
the three injected operations: each awaited call either resolves (`ok`),
rejects (`err msg`), or never settles (`hang`).  JavaScript's run-to-
completion semantics mean a hung await simply ends `start`'s contribution to
the run — no further code in `start` executes — which is how `hang` is
modelled.  `await blob.arrayBuffer()` on an in-memory `File` is treated as
always resolving, and `setTimeout` retry delays do not affect the emitted
trace, so `retryDelayMs` is carried but unused. -/

/-- JavaScript `String.prototype.endsWith`, computed on the character
lists (Lean's own `String.endsWith` is byte-position based and does not
reduce in the kernel). -/
def strEndsWith (s pat : String) : Bool :=
  pat.data.isSuffixOf s.data

/-- The outcome of one awaited injected operation. -/
inductive Outcome (α : Type) where
  | ok (value : α)
  | err (msg : String)
  | hang
deriving DecidableEq, Repr

/-- `OrchestratorConfig` from `src/lib/upload-orchestrator.ts` (the
`onStateChange` observer is modelled as the collected trace). -/
structure OrchestratorConfig where
  chunkSize : Nat
  maxRetries : Nat
  retryDelayMs : Nat
deriving DecidableEq, Repr

/-- The observable run of one `start` attempt: the orchestrator's
`currentState`, the states handed to `onStateChange` in order (`trace`),
the events fed to `transition` in order (`events`), and one entry
`(chunkIndex, attempt)` per `sendChunk` invocation (`sendCalls`). -/
structure RunState where
  current : UploadState
  trace : List UploadState
  events : List UploadEvent
  sendCalls : List (Nat × Nat)
deriving DecidableEq, Repr

/-- `emit` from `src/lib/upload-orchestrator.ts`: advance `currentState`
through `transition` and notify the observer. -/
def emit (rs : RunState) (e : UploadEvent) : RunState :=
  let s := transition rs.current e
  { rs with current := s, trace := rs.trace ++ [s], events := rs.events ++ [e] }

/-- `Math.ceil(file.size / config.chunkSize)` over naturals (the JS float
division agrees with `Nat` ceiling division whenever `chunkSize > 0`). -/
def chunksTotalOf (size chunkSize : Nat) : Nat :=
  (size + chunkSize - 1) / chunkSize

/-- How the per-chunk retry loop ended: the chunk was sent (`sent`), the
loop body never ran because `maxRetries = 0` (`skipped`), or `start`
returns/suspends right here (`stop`: cancellation, retry budget exhausted
with `CHUNK_FAILED` emitted, or a hung send). -/
inductive RetryResult where
  | sent
  | skipped
  | stop
deriving DecidableEq, Repr

/-- The inner `for (attempt = 1; attempt <= maxRetries; attempt++)` loop of
`start`, with `fuel` the number of remaining permitted attempts (initially
`maxRetries`) so the body runs exactly while `attempt ≤ maxRetries`.
`aborted` is the (constant) value the `isAborted()` checks observe. -/
def retryLoop (aborted : Bool) (send : Nat → Nat → Outcome Unit)
    (maxRetries chunkIndex : Nat) : Nat → Nat → RunState → RunState × RetryResult
  | 0, _, rs => (rs, .skipped)
  | fuel + 1, attempt, rs =>
    let rs := { rs with sendCalls := rs.sendCalls ++ [(chunkIndex, attempt)] }
    match send chunkIndex attempt with
    | .hang => (rs, .stop)
    | .ok _ =>
      if aborted then (emit rs .cancel, .stop) else (rs, .sent)
    | .err msg =>
      if aborted then (emit rs .cancel, .stop)
      else if maxRetries ≤ attempt then
        (emit rs (.chunkFailed chunkIndex msg), .stop)
      else
        retryLoop aborted send maxRetries chunkIndex fuel (attempt + 1) rs

/-- The `for (i = 0; i < chunksTotal; i++)` chunk loop of `start`, with
`fuel` the number of chunks left.  Returns `true` when every chunk was
processed and control reaches the finalize step. -/
def chunkLoop (aborted : Bool) (send : Nat → Nat → Outcome Unit)
    (chunkSize maxRetries fileSize : Nat) : Nat → Nat → RunState → RunState × Bool
  | 0, _, rs => (rs, true)
  | fuel + 1, i, rs =>
    if aborted then (emit rs .cancel, false)
    else
      let endByte := min (i * chunkSize + chunkSize) fileSize
      match retryLoop aborted send maxRetries i maxRetries 1 rs with
      | (rs, .stop) => (rs, false)
      | (rs, .sent) =>
        chunkLoop aborted send chunkSize maxRetries fileSize fuel (i + 1)
          (emit rs (.chunkSent i endByte))
      | (rs, .skipped) =>
        chunkLoop aborted send chunkSize maxRetries fileSize fuel (i + 1) rs

/-- `start` from `src/lib/upload-orchestrator.ts`, as the run it produces.
Branches mirror the source: name/type validation, empty-file validation,
`initialize` (with its catch block emitting the `Uploading` shim and the
connectivity `CHUNK_FAILED`), the chunk loop, then `finalize`. -/
def runStart (aborted : Bool) (init : Outcome String)
    (send : Nat → Nat → Outcome Unit) (fin : Outcome Unit)
    (config : OrchestratorConfig) (file : FileInfo) : RunState :=
  let rs : RunState := ⟨initialState, [], [], []⟩
  let rs := emit rs (.fileSelected file)
  if !strEndsWith file.name ".csv" && file.type != "text/csv" then
    emit rs (.validationFailed "Please select a CSV file.")
  else if file.size == 0 then
    emit rs (.validationFailed "This file appears to be empty.")
  else
    let chunksTotal := chunksTotalOf file.size config.chunkSize
    match init with
    | .hang => rs
    | .err _ =>
      if aborted then emit rs .cancel
      else
        let rs := emit rs (.validationPassed "" chunksTotal)
        emit rs (.chunkFailed 0 "Could not start upload. Check your connection.")
    | .ok sessionId =>
      if aborted then emit rs .cancel
      else
        let rs := emit rs (.validationPassed sessionId chunksTotal)
        match chunkLoop aborted send config.chunkSize config.maxRetries
            file.size chunksTotal 0 rs with
        | (rs, false) => rs
        | (rs, true) =>
          match fin with
          | .hang => rs
          | .ok _ =>
            if aborted then emit rs .cancel else emit rs .finalizeSuccess
          | .err msg =>
            if aborted then emit rs .cancel else emit rs (.finalizeFailed msg)

/-- `cancel()` from `src/lib/upload-orchestrator.ts`, applied after `start`
has suspended: it arms the abort signal and immediately emits `CANCEL`
against the orchestrator's current state. -/
def cancelRun (rs : RunState) : RunState := emit rs .cancel

/-- The `phase` discriminant of an `UploadState`. -/
inductive Phase where
  | idle
  | validating
  | uploading
  | finalizing
  | done
  | error
deriving DecidableEq, Repr

/-- Project an `UploadState` to its `phase` discriminant. -/
def UploadState.phase : UploadState → Phase
  | .idle => .idle
  | .validating _ => .validating
  | .uploading _ _ _ _ _ _ => .uploading
  | .finalizing _ _ => .finalizing
  | .done _ => .done
  | .error _ _ _ _ => .error

/-- C6: a 2048-byte CSV file with `chunkSize = 1024`, with `initialize`,
`sendChunk` and `finalize` all succeeding, emits exactly the snapshot
sequence `Validating, Uploading, Uploading, Finalizing, Done` — the first
`Uploading` after `initialize`, one more after chunk 0, chunk 1's
completion moving to `Finalizing`. -/
theorem C6_end_to_end :
    (runStart false (.ok "sess-1") (fun _ _ => .ok ()) (.ok ())
        ⟨1024, 3, 0⟩ ⟨"data.csv", 2048, "text/csv"⟩).trace =
      [.validating ⟨"data.csv", 2048, "text/csv"⟩,
       .uploading ⟨"data.csv", 2048, "text/csv"⟩ "sess-1" 0 2048 0 2,
       .uploading ⟨"data.csv", 2048, "text/csv"⟩ "sess-1" 1024 2048 1 2,
       .finalizing ⟨"data.csv", 2048, "text/csv"⟩ "sess-1",
       .done "sess-1"] ∧
    (runStart false (.ok "sess-1") (fun _ _ => .ok ()) (.ok ())
        ⟨1024, 3, 0⟩ ⟨"data.csv", 2048, "text/csv"⟩).trace.map UploadState.phase =
      [.validating, .uploading, .uploading, .finalizing, .done] := by
  decide

/-- C7: when `initialize` rejects and the attempt has not been cancelled,
the run transitions through the `Uploading`-equivalent shim state (session
id `""`) and ends in `Error` with `retryable = true` and the connectivity
message — unlike validation failures, which produce `retryable = false`. -/
theorem C7_init_failure_retryable (file : FileInfo) (config : OrchestratorConfig)
    (msg : String) (send : Nat → Nat → Outcome Unit) (fin : Outcome Unit)
    (hcsv : strEndsWith file.name ".csv" = true ∨ file.type = "text/csv")
    (hsize : file.size ≠ 0) :
    (runStart false (.err msg) send fin config file).trace =
      [.validating file,
       .uploading file "" 0 file.size 0 (chunksTotalOf file.size config.chunkSize),
       .error "Could not start upload. Check your connection." true (some file) (some "")] ∧
    (runStart false (.err msg) send fin config file).current =
      .error "Could not start upload. Check your connection." true (some file) (some "") := by
  have hcond : (!strEndsWith file.name ".csv" && file.type != "text/csv") = false := by
    rcases hcsv with h | h
    · simp [h]
    · simp [h]
  have hz : (file.size == 0) = false := by simpa using hsize
  simp [runStart, hcond, hz, emit, transition, initialState]

/-- Witness for C7: a 10-byte `a.csv` with a rejecting `initialize`. -/
theorem C7_init_failure_retryable_witness :
    (runStart false (.err "init failed") (fun _ _ => .ok ()) (.ok ())
        ⟨4, 3, 0⟩ ⟨"a.csv", 10, "text/csv"⟩).trace =
      [.validating ⟨"a.csv", 10, "text/csv"⟩,
       .uploading ⟨"a.csv", 10, "text/csv"⟩ "" 0 10 0 3,
       .error "Could not start upload. Check your connection." true
         (some ⟨"a.csv", 10, "text/csv"⟩) (some "")] ∧
    (runStart false (.err "init failed") (fun _ _ => .ok ()) (.ok ())
        ⟨4, 3, 0⟩ ⟨"a.csv", 10, "text/csv"⟩).current =
      .error "Could not start upload. Check your connection." true
        (some ⟨"a.csv", 10, "text/csv"⟩) (some "") := by
  have h := C7_init_failure_retryable ⟨"a.csv", 10, "text/csv"⟩ ⟨4, 3, 0⟩
    "init failed" (fun _ _ => .ok ()) (.ok ()) (Or.inr rfl) (by decide)
  simpa [chunksTotalOf] using h

/-- A chunk sender that rejects on attempts `1..k` (with message `m`) and
resolves from attempt `k+1` on, for every chunk. -/
def sendFailThenOk (k : Nat) (m : String) : Nat → Nat → Outcome Unit :=
  fun _ attempt => if attempt ≤ k then .err m else .ok ()

/-- A chunk sender that always rejects with message `m`. -/
def sendAlwaysFail (m : String) : Nat → Nat → Outcome Unit :=
  fun _ _ => .err m

/-- The `sendChunk` invocations `(chunkIndex, attempt)` for chunks
`lo, lo+1, …, lo+n-1`, each taking attempts `1..k+1`. -/
def callsFor (k lo n : Nat) : List (Nat × Nat) :=
  (List.range' lo n).flatMap (fun i => (List.range' 1 (k + 1)).map (fun a => (i, a)))

theorem callsFor_succ (k lo n : Nat) :
    callsFor k lo (n + 1) =
      ((List.range' 1 (k + 1)).map (fun a => (lo, a))) ++ callsFor k (lo + 1) n := by
  simp [callsFor, List.range'_succ]

theorem countP_callsFor (k : Nat) :
    ∀ n lo i, (callsFor k lo n).countP (fun p => p.1 == i) =
      if lo ≤ i ∧ i < lo + n then k + 1 else 0 := by
  intro n
  induction n with
  | zero =>
    intro lo i
    have h : ¬ (lo ≤ i ∧ i < lo) := by omega
    simp [callsFor, h]
  | succ n ih =>
    intro lo i
    rw [callsFor_succ, List.countP_append, List.countP_map, ih]
    by_cases hli : lo = i
    · subst hli
      have h1 : ¬ (lo + 1 ≤ lo ∧ lo < lo + 1 + n) := by omega
      have h2 : lo ≤ lo ∧ lo < lo + (n + 1) := by omega
      simp [h1, h2, Function.comp_def, List.countP_true]
    · have h2 : ((lo ≤ i ∧ i < lo + (n + 1)) ↔ (lo + 1 ≤ i ∧ i < lo + 1 + n)) := by omega
      simp [Function.comp_def, hli, h2]

/-- Retry loop under `sendFailThenOk k m`, within the retry budget: succeeds
after the calls `attempt..k+1`, changing nothing but `sendCalls`. -/
theorem retryLoop_sendFailThenOk (k : Nat) (m : String) (maxR i : Nat)
    (hk : k + 1 ≤ maxR) :
    ∀ fuel attempt rs, attempt + fuel = maxR + 1 → attempt ≤ k + 1 →
    retryLoop false (sendFailThenOk k m) maxR i fuel attempt rs =
      ({ rs with sendCalls :=
          rs.sendCalls ++ (List.range' attempt (k + 2 - attempt)).map (fun a => (i, a)) },
       .sent) := by
  intro fuel
  induction fuel with
  | zero => intro attempt rs h1 h2; omega
  | succ n ih =>
    intro attempt rs h1 h2
    by_cases hak : attempt ≤ k
    · have hsend : sendFailThenOk k m i attempt = .err m := by
        simp [sendFailThenOk, hak]
      have hm : ¬ maxR ≤ attempt := by omega
      rw [retryLoop, hsend]
      simp only [Bool.false_eq_true, if_false, hm]
      rw [ih (attempt + 1) _ (by omega) (by omega)]
      have hr : k + 2 - attempt = (k + 2 - (attempt + 1)) + 1 := by omega
      rw [hr, List.range'_succ]
      simp
    · have heq : attempt = k + 1 := by omega
      subst heq
      have hsend : sendFailThenOk k m i (k + 1) = .ok () := by
        simp [sendFailThenOk]
      rw [retryLoop, hsend]
      have hr : k + 2 - (k + 1) = 1 := by omega
      simp [hr]

/-- Retry loop under `sendAlwaysFail m`: exhausts the budget, emits
`CHUNK_FAILED` and stops, having recorded the calls `attempt..maxR`. -/
theorem retryLoop_sendAlwaysFail (m : String) (maxR i : Nat) :
    ∀ fuel attempt rs, attempt + fuel = maxR + 1 → attempt ≤ maxR →
    retryLoop false (sendAlwaysFail m) maxR i fuel attempt rs =
      (emit { rs with sendCalls :=
          rs.sendCalls ++ (List.range' attempt (maxR + 1 - attempt)).map (fun a => (i, a)) }
        (.chunkFailed i m),
       .stop) := by
  intro fuel
  induction fuel with
  | zero => intro attempt rs h1 h2; omega
  | succ n ih =>
    intro attempt rs h1 h2
    by_cases hlast : maxR ≤ attempt
    · rw [retryLoop]
      have hr : maxR + 1 - attempt = 1 := by omega
      simp [sendAlwaysFail, hlast, hr]
    · rw [retryLoop]
      simp only [sendAlwaysFail, Bool.false_eq_true, if_false, hlast]
      rw [ih (attempt + 1) _ (by omega) (by omega)]
      have hr : maxR + 1 - attempt = (maxR + 1 - (attempt + 1)) + 1 := by omega
      rw [hr, List.range'_succ]
      simp

/-- Chunk loop under `sendFailThenOk k m` with `fuel + 1` chunks left and the
current state `Uploading` with `chunksCompleted = i`, `chunksTotal = i +
fuel + 1`: all chunks are sent, ending `Finalizing`, with exactly the calls
`callsFor k i (fuel + 1)` appended. -/
theorem chunkLoop_sendFailThenOk (k : Nat) (m : String) (cs maxR fsize : Nat)
    (hk : k + 1 ≤ maxR) :
    ∀ fuel i rs f sid bs bt,
      rs.current = .uploading f sid bs bt i (i + (fuel + 1)) →
      ∃ rs', chunkLoop false (sendFailThenOk k m) cs maxR fsize (fuel + 1) i rs =
          (rs', true) ∧
        rs'.current = .finalizing f sid ∧
        rs'.sendCalls = rs.sendCalls ++ callsFor k i (fuel + 1) := by
  intro fuel
  induction fuel with
  | zero =>
    intro i rs f sid bs bt hcur
    rw [chunkLoop]
    simp only [Bool.false_eq_true, if_false]
    rw [retryLoop_sendFailThenOk k m maxR i hk maxR 1 rs (by omega) (by omega)]
    refine ⟨_, rfl, ?_, ?_⟩
    · simp [emit, hcur, transition]
    · simp [emit, callsFor]
  | succ n ih =>
    intro i rs f sid bs bt hcur
    rw [chunkLoop]
    simp only [Bool.false_eq_true, if_false]
    rw [retryLoop_sendFailThenOk k m maxR i hk maxR 1 rs (by omega) (by omega)]
    have hstay : ¬ i + 1 ≥ i + (n + 1 + 1) := by omega
    have hcur2 :
        (emit { rs with sendCalls :=
            rs.sendCalls ++ (List.range' 1 (k + 2 - 1)).map (fun a => (i, a)) }
          (.chunkSent i (min (i * cs + cs) fsize))).current =
          .uploading f sid (min (i * cs + cs) fsize) bt (i + 1) ((i + 1) + (n + 1)) := by
      simp only [emit, hcur, transition]
      rw [if_neg hstay]
      congr 1
      omega
    obtain ⟨rs', heq, hc, hsc⟩ := ih (i + 1) _ f sid _ bt hcur2
    refine ⟨rs', ?_, hc, ?_⟩
    · exact heq
    rw [hsc]
    simp only [emit]
    have hr : k + 2 - 1 = k + 1 := by omega
    rw [hr]
    have hcf : callsFor k i (n + 1 + 1) =
        ((List.range' 1 (k + 1)).map (fun a => (i, a))) ++ callsFor k (i + 1) (n + 1) :=
      callsFor_succ k i (n + 1)
    rw [hcf, List.append_assoc]

/-- `chunksTotalOf` is positive for a nonempty file and a positive chunk
size. -/
theorem chunksTotalOf_pos (size cs : Nat) (hs : 0 < size) (hc : 0 < cs) :
    0 < chunksTotalOf size cs := by
  have h := (Nat.one_le_div_iff hc).mpr (by omega : cs ≤ size + cs - 1)
  unfold chunksTotalOf
  omega

/-- C4: under a chunk sender that fails exactly `k < maxRetries` times and
then succeeds (per chunk), the attempt reaches `Done` and `sendChunk` was
called exactly `k+1` times for each chunk; under a sender that always fails,
the attempt ends in `Error{retryable := true}` after exactly `maxRetries`
`sendChunk` calls. -/
theorem C4_retry_bound (file : FileInfo) (config : OrchestratorConfig)
    (k : Nat) (sid m : String)
    (hcsv : strEndsWith file.name ".csv" = true ∨ file.type = "text/csv")
    (hsize : 0 < file.size) (hcs : 0 < config.chunkSize)
    (hk : k + 1 ≤ config.maxRetries) :
    ((runStart false (.ok sid) (sendFailThenOk k m) (.ok ()) config file).current
        = .done sid ∧
      ∀ i, i < chunksTotalOf file.size config.chunkSize →
        ((runStart false (.ok sid) (sendFailThenOk k m) (.ok ()) config file).sendCalls.countP
            (fun p => p.1 == i)) = k + 1) ∧
    ((runStart false (.ok sid) (sendAlwaysFail m) (.ok ()) config file).current
        = .error m true (some file) (some sid) ∧
      (runStart false (.ok sid) (sendAlwaysFail m) (.ok ()) config file).sendCalls.length
        = config.maxRetries) := by
  have hcond : (!strEndsWith file.name ".csv" && file.type != "text/csv") = false := by
    rcases hcsv with h | h
    · simp [h]
    · simp [h]
  have hz : (file.size == 0) = false := by
    simp only [beq_eq_false_iff_ne, ne_eq]
    omega
  obtain ⟨n, hn⟩ : ∃ n, chunksTotalOf file.size config.chunkSize = n + 1 :=
    ⟨_, (Nat.succ_pred_eq_of_pos
      (chunksTotalOf_pos file.size config.chunkSize hsize hcs)).symm⟩
  have hcur : (emit (emit ⟨initialState, [], [], []⟩ (.fileSelected file))
      (.validationPassed sid (n + 1))).current =
        .uploading file sid 0 file.size 0 (0 + (n + 1)) := by
    simp [emit, transition, initialState]
  obtain ⟨rs', heq, hc, hsc⟩ :=
    chunkLoop_sendFailThenOk k m config.chunkSize config.maxRetries file.size hk
      n 0 _ file sid 0 file.size hcur
  have hscn : rs'.sendCalls = callsFor k 0 (n + 1) := by
    simpa [emit] using hsc
  have hrunA : runStart false (.ok sid) (sendFailThenOk k m) (.ok ()) config file =
      emit rs' .finalizeSuccess := by
    rw [runStart]
    simp only [hcond, hz, Bool.false_eq_true, if_false, hn]
    rw [heq]
  constructor
  · constructor
    · rw [hrunA]
      simp [emit, hc, transition]
    · intro i hi
      rw [hn] at hi
      rw [hrunA]
      have : (emit rs' .finalizeSuccess).sendCalls = callsFor k 0 (n + 1) := by
        simp [emit, hscn]
      rw [this, countP_callsFor]
      have hcnd : 0 ≤ i ∧ i < 0 + (n + 1) := by omega
      rw [if_pos hcnd]
  · have hstep := retryLoop_sendAlwaysFail m config.maxRetries 0 config.maxRetries 1
      (emit (emit ⟨initialState, [], [], []⟩ (.fileSelected file))
        (.validationPassed sid (n + 1))) (by omega) (by omega)
    have hrunB : runStart false (.ok sid) (sendAlwaysFail m) (.ok ()) config file =
        emit { emit (emit ⟨initialState, [], [], []⟩ (.fileSelected file))
            (.validationPassed sid (n + 1)) with
          sendCalls :=
            (emit (emit ⟨initialState, [], [], []⟩ (.fileSelected file))
              (.validationPassed sid (n + 1))).sendCalls ++
              (List.range' 1 (config.maxRetries + 1 - 1)).map (fun a => (0, a)) }
          (.chunkFailed 0 m) := by
      rw [runStart]
      simp only [hcond, hz, Bool.false_eq_true, if_false, hn]
      rw [chunkLoop]
      simp only [Bool.false_eq_true, if_false]
      rw [hstep]
    constructor
    · rw [hrunB]
      simp [emit, transition, initialState]
    · rw [hrunB]
      simp [emit, List.length_range']

/-- Witness for C4: a 2048-byte CSV in 1024-byte chunks, `maxRetries = 3`,
`k = 2` failures per chunk. -/
theorem C4_retry_bound_witness :
    ((runStart false (.ok "s") (sendFailThenOk 2 "flaky") (.ok ())
        ⟨1024, 3, 0⟩ ⟨"test.csv", 2048, "text/csv"⟩).current = .done "s" ∧
      ∀ i, i < chunksTotalOf 2048 1024 →
        ((runStart false (.ok "s") (sendFailThenOk 2 "flaky") (.ok ())
            ⟨1024, 3, 0⟩ ⟨"test.csv", 2048, "text/csv"⟩).sendCalls.countP
          (fun p => p.1 == i)) = 2 + 1) ∧
    ((runStart false (.ok "s") (sendAlwaysFail "flaky") (.ok ())
        ⟨1024, 3, 0⟩ ⟨"test.csv", 2048, "text/csv"⟩).current =
          .error "flaky" true (some ⟨"test.csv", 2048, "text/csv"⟩) (some "s") ∧
      (runStart false (.ok "s") (sendAlwaysFail "flaky") (.ok ())
          ⟨1024, 3, 0⟩ ⟨"test.csv", 2048, "text/csv"⟩).sendCalls.length = 3) :=
  C4_retry_bound ⟨"test.csv", 2048, "text/csv"⟩ ⟨1024, 3, 0⟩ 2 "s" "flaky"
    (Or.inr rfl) (by decide) (by decide) (by decide)

/-- A chunk sender whose promise for chunk `j` never settles; other chunks
resolve immediately. -/
def sendHangAt (j : Nat) : Nat → Nat → Outcome Unit :=
  fun i _ => if i = j then .hang else .ok ()

/-- Chunk loop under `sendHangAt j`, with `j` among the remaining chunks and
at least one permitted attempt: chunks before `j` are sent, the send of
chunk `j` hangs, and `start` suspends there — still `Uploading`, with
`ChunkSent` events only for the chunks before `j`. -/
theorem chunkLoop_sendHangAt (j cs maxR fsize : Nat) (hmr : 1 ≤ maxR) :
    ∀ fuel i rs f sid bs bt,
      rs.current = .uploading f sid bs bt i (i + fuel) →
      i ≤ j → j < i + fuel →
      ∃ rs', chunkLoop false (sendHangAt j) cs maxR fsize fuel i rs = (rs', false) ∧
        (∃ b', rs'.current = .uploading f sid b' bt j (i + fuel)) ∧
        rs'.events = rs.events ++
          (List.range' i (j - i)).map
            (fun q => UploadEvent.chunkSent q (min (q * cs + cs) fsize)) := by
  intro fuel
  induction fuel with
  | zero => intro i rs f sid bs bt hcur hij hji; omega
  | succ n ih =>
    intro i rs f sid bs bt hcur hij hji
    obtain ⟨mr, hmr'⟩ : ∃ mr, maxR = mr + 1 :=
      ⟨maxR - 1, by omega⟩
    by_cases hij : i = j
    · subst hij
      rw [chunkLoop]
      simp only [Bool.false_eq_true, if_false]
      rw [hmr', retryLoop]
      have hsend : sendHangAt i i 1 = .hang := by simp [sendHangAt]
      rw [hsend]
      refine ⟨_, rfl, ⟨bs, ?_⟩, ?_⟩
      · simpa using hcur
      · simp
    · have hlt : i < j := by omega
      have hn1 : 1 ≤ n := by omega
      rw [chunkLoop]
      simp only [Bool.false_eq_true, if_false]
      rw [hmr', retryLoop]
      have hsend : sendHangAt j i 1 = .ok () := by simp [sendHangAt, hij]
      rw [hsend]
      simp only [Bool.false_eq_true, if_false]
      have hstay : ¬ i + 1 ≥ i + (n + 1) := by omega
      have hcur2 :
          (emit { rs with sendCalls := rs.sendCalls ++ [(i, 1)] }
            (.chunkSent i (min (i * cs + cs) fsize))).current =
            .uploading f sid (min (i * cs + cs) fsize) bt (i + 1) ((i + 1) + n) := by
        simp only [emit, hcur, transition]
        rw [if_neg hstay]
        congr 1
        omega
      obtain ⟨rs', heq, hcur', hev⟩ :=
        ih (i + 1) _ f sid (min (i * cs + cs) fsize) bt hcur2 (by omega) (by omega)
      refine ⟨rs', ?_, ?_, ?_⟩
      · rw [hmr'] at heq
        exact heq
      · obtain ⟨b', hb'⟩ := hcur'
        exact ⟨b', by rw [hb']; congr 1; omega⟩
      · rw [hev]
        simp only [emit]
        have hr : j - i = (j - (i + 1)) + 1 := by omega
        rw [hr, List.range'_succ]
        simp [List.append_assoc]

/-- C5: if `cancel()` is called while the send of chunk `j` is pending and
its promise never resolves, the final state emitted to the observer is
`Idle`, and no `ChunkSent` or `ChunkFailed` event is ever emitted for that
pending `sendChunk` call. -/
theorem C5_cancel_race (file : FileInfo) (config : OrchestratorConfig)
    (j : Nat) (sid : String) (fin : Outcome Unit)
    (hcsv : strEndsWith file.name ".csv" = true ∨ file.type = "text/csv")
    (hsize : 0 < file.size) (hcs : 0 < config.chunkSize)
    (hmr : 1 ≤ config.maxRetries)
    (hj : j < chunksTotalOf file.size config.chunkSize) :
    (cancelRun (runStart false (.ok sid) (sendHangAt j) fin config file)).trace.getLast?
        = some .idle ∧
    (∀ b, UploadEvent.chunkSent j b ∉
      (cancelRun (runStart false (.ok sid) (sendHangAt j) fin config file)).events) ∧
    (∀ m', UploadEvent.chunkFailed j m' ∉
      (cancelRun (runStart false (.ok sid) (sendHangAt j) fin config file)).events) := by
  have hcond : (!strEndsWith file.name ".csv" && file.type != "text/csv") = false := by
    rcases hcsv with h | h
    · simp [h]
    · simp [h]
  have hz : (file.size == 0) = false := by
    simp only [beq_eq_false_iff_ne, ne_eq]
    omega
  obtain ⟨n, hn⟩ : ∃ n, chunksTotalOf file.size config.chunkSize = n + 1 :=
    ⟨_, (Nat.succ_pred_eq_of_pos
      (chunksTotalOf_pos file.size config.chunkSize hsize hcs)).symm⟩
  have hcur : (emit (emit ⟨initialState, [], [], []⟩ (.fileSelected file))
      (.validationPassed sid (n + 1))).current =
        .uploading file sid 0 file.size 0 (0 + (n + 1)) := by
    simp [emit, transition, initialState]
  obtain ⟨rs', heq, ⟨b', hcur'⟩, hev⟩ :=
    chunkLoop_sendHangAt j config.chunkSize config.maxRetries file.size hmr
      (n + 1) 0 _ file sid 0 file.size hcur (by omega) (by rw [hn] at hj; omega)
  have hrun : runStart false (.ok sid) (sendHangAt j) fin config file = rs' := by
    rw [runStart]
    simp only [hcond, hz, Bool.false_eq_true, if_false, hn]
    rw [heq]
  have hevents : rs'.events =
      [UploadEvent.fileSelected file, UploadEvent.validationPassed sid (n + 1)] ++
        (List.range' 0 (j - 0)).map
          (fun q => UploadEvent.chunkSent q
            (min (q * config.chunkSize + config.chunkSize) file.size)) := by
    rw [hev]
    simp [emit]
  refine ⟨?_, ?_, ?_⟩
  · rw [hrun]
    simp only [cancelRun, emit, hcur', transition]
    exact List.getLast?_concat _
  · intro b
    rw [hrun]
    simp only [cancelRun, emit, hevents]
    simp [List.mem_range'_1]
    omega
  · intro m'
    rw [hrun]
    simp only [cancelRun, emit, hevents]
    simp [List.mem_range'_1]

/-- Witness for C5: a 2-chunk file whose second chunk send hangs, cancelled
while it is pending. -/
theorem C5_cancel_race_witness :
    (cancelRun (runStart false (.ok "s") (sendHangAt 1) (.ok ())
      ⟨1024, 1, 0⟩ ⟨"test.csv", 2048, "text/csv"⟩)).trace.getLast? = some .idle ∧
    (∀ b, UploadEvent.chunkSent 1 b ∉
      (cancelRun (runStart false (.ok "s") (sendHangAt 1) (.ok ())
        ⟨1024, 1, 0⟩ ⟨"test.csv", 2048, "text/csv"⟩)).events) ∧
    (∀ m', UploadEvent.chunkFailed 1 m' ∉
      (cancelRun (runStart false (.ok "s") (sendHangAt 1) (.ok ())
        ⟨1024, 1, 0⟩ ⟨"test.csv", 2048, "text/csv"⟩)).events) :=
  C5_cancel_race ⟨"test.csv", 2048, "text/csv"⟩ ⟨1024, 1, 0⟩ 1 "s" (.ok ())
    (Or.inr rfl) (by decide) (by decide) (by decide) (by decide)

/-! ## Structural CSV validator (`src/lib/csv-validator.ts`)

JavaScript string primitives (`trim`, `split`, template strings) are
embedded as character-list computations, since Lean's own byte-position
`String` functions do not reduce in the kernel. -/

/-- JavaScript `String.prototype.trim` (the repository's inputs use only
ASCII whitespace, which `Char.isWhitespace` covers). -/
def jsTrim (s : String) : String :=
  ⟨((s.data.dropWhile Char.isWhitespace).reverse.dropWhile Char.isWhitespace).reverse⟩

/-- `split` on a single-character separator, JS semantics
(`"a,,b".split(",") = ["a","","b"]`, `"".split(",") = [""]`). -/
def splitOnChar (sep : Char) : List Char → List (List Char)
  | [] => [[]]
  | c :: rest =>
    match splitOnChar sep rest with
    | g :: gs => if c = sep then [] :: g :: gs else (c :: g) :: gs
    | [] => [[c]]

/-- JS `s.split(sep)` for a one-character separator. -/
def strSplit (sep : Char) (s : String) : List String :=
  (splitOnChar sep s.data).map (fun g => ⟨g⟩)

/-- Remove one trailing `'\r'`, so that splitting on `'\n'` and applying
this models splitting on `/\r?\n/` (and papaparse's CRLF handling). -/
def dropTrailingCR (s : String) : String :=
  match s.data.getLast? with
  | some c => if c = '\r' then ⟨s.data.dropLast⟩ else s
  | none => s

/-- Split text into lines on `\r?\n`. -/
def splitLines (s : String) : List String :=
  (strSplit '\n' s).map dropTrailingCR

/-- One-or-more ASCII digits. -/
def digits1 (cs : List Char) : Bool :=
  !cs.isEmpty && cs.all Char.isDigit

/-- The numeric pattern `/^-?\d+(\.\d+)?$/` of the source. -/
def numericLike (s : String) : Bool :=
  let cs := match s.data with
    | '-' :: rest => rest
    | cs => cs
  match splitOnChar '.' cs with
  | [a] => digits1 a
  | [a, b] => digits1 a && digits1 b
  | _ => false

/-- ASCII lowercasing of one character (for the `/i` regex flag). -/
def lowerChar (c : Char) : Char :=
  if 65 ≤ c.toNat ∧ c.toNat ≤ 90 then Char.ofNat (c.toNat + 32) else c

/-- ASCII lowercasing of a string. -/
def lowerStr (s : String) : String := ⟨s.data.map lowerChar⟩

/-- The boolean pattern `/^(true|false)$/i` of the source. -/
def booleanLike (s : String) : Bool :=
  lowerStr s == "true" || lowerStr s == "false"

/-- `CsvValidationResult` from `src/lib/csv-validator.ts` (the `warnings`
field of the `valid` variant is optional in the source). -/
inductive CsvValidationResult where
  | valid (warnings : Option (List String))
  | invalid (error : String)
deriving DecidableEq, Repr

/-- The `NOT_VALID` constant of the source. -/
def NOT_VALID : String := "Not a valid CSV file"

/-- What `validateCsvContent` reads off the parser's output. -/
structure PapaResult where
  fields : List String
  data : List (List String)
  hasRealErrors : Bool
deriving DecidableEq, Repr

/-- Modelled from the spec: the external `papaparse` call
`Papa.parse(content, { header: true, preview: 10, skipEmptyLines: true })`,
which is a dependency, not repository code.  Per §4.3 it parses up to the
first 10 rows as delimiter-separated records with the first row as header.
The model: split into lines on `\r?\n`, skip empty lines, take 10 rows
(header + at most 9 data rows), split each on `","`.  Duplicate headers are
auto-renamed by papaparse, so data records are positional.  Row/header
field-count mismatches are the parser's `FieldMismatch` errors; the
`UndetectableDelimiter` error for single-column input is ignored by the
caller and therefore not flagged here.  Quoted fields are not modelled. -/
def papaParseHeadPreview (content : String) : PapaResult :=
  let lines := ((splitLines content).filter (fun l => l != "")).take 10
  match lines with
  | [] => { fields := [], data := [], hasRealErrors := false }
  | first :: rest =>
    let fields := strSplit ',' first
    let data := rest.map (strSplit ',')
    { fields := fields, data := data,
      hasRealErrors := data.any (fun r => r.length != fields.length) }

/-- The structural characters of the source's `/[{[\]}<>]/` guard. -/
def structuralChars : List Char := ['\x7b', '[', ']', '\x7d', '<', '>']

/-- `inferType` from `src/lib/csv-validator.ts`. -/
inductive CellType where
  | number
  | boolean
  | empty
  | string
deriving DecidableEq, Repr

/-- `inferType` from `src/lib/csv-validator.ts`. -/
def inferType (value : String) : CellType :=
  let v := jsTrim value
  if v.data.isEmpty then .empty
  else if numericLike v then .number
  else if booleanLike v then .boolean
  else .string

/-- `hasMixedTypes` from `src/lib/csv-validator.ts`; rows are positional
(papaparse's auto-renamed headers are pairwise distinct, so iterating the
fields reads each row positionally; a missing value reads as `""`). -/
def hasMixedTypes (rows : List (List String)) (numFields : Nat) : Bool :=
  (List.range numFields).any (fun idx =>
    ((rows.map (fun row => inferType (row.getD idx ""))).filter
      (fun t => t != CellType.empty)).eraseDups.length > 1)

/-- `looksLikeDataRow` from `src/lib/csv-validator.ts`. -/
def looksLikeDataRow (fields : List String) : Bool :=
  fields.any (fun f => numericLike (jsTrim f) || booleanLike (jsTrim f))

/-- `validateCsvContent` from `src/lib/csv-validator.ts`, over the modelled
parser.  Branch order mirrors the source. -/
def validateCsvContent (content : String) : CsvValidationResult :=
  if (jsTrim content).data.length = 0 then .invalid NOT_VALID
  else
    let result := papaParseHeadPreview content
    if result.hasRealErrors then .invalid NOT_VALID
    else
      let fields := result.fields
      if fields.length = 0 then .invalid NOT_VALID
      else if fields.length < 2 && result.data.length == 0 then .invalid NOT_VALID
      else if fields.any (fun f => f.data.any (fun c => structuralChars.contains c)) then
        .invalid NOT_VALID
      else
        let w1 := if looksLikeDataRow fields then ["no-header"] else []
        let rawHeaders :=
          (strSplit ',' ((splitLines (jsTrim content)).headD "")).map jsTrim
        let w2 := if rawHeaders.eraseDups.length < rawHeaders.length then
          ["duplicate-columns"] else []
        let w3 := if result.data.length == 0 ||
            result.data.all (fun row => row.all (fun v => (jsTrim v).data.isEmpty)) then
          ["no-data"] else []
        let w4 := if result.data.length ≥ 2 && hasMixedTypes result.data fields.length then
          ["mixed-types"] else []
        let warnings := w1 ++ w2 ++ w3 ++ w4
        if warnings.length > 0 then .valid (some warnings) else .valid none

/-- `isUploadable` from `src/lib/csv-validator.ts`:
`result.valid && !result.warnings?.includes("no-data")` (an absent warnings
list blocks nothing). -/
def isUploadable : CsvValidationResult → Bool
  | .valid w => !((w.getD []).contains "no-data")
  | .invalid _ => false

/-- C8: `isUploadable` is true exactly on `valid` results whose warnings
lack `no-data`; the headers-only content `"id,name,email\n"` validates as
`valid` with warnings `["no-data"]` and is not uploadable; and
`duplicate-columns`, `no-header` and `mixed-types` warnings never block. -/
theorem C8_isUploadable :
    (∀ r : CsvValidationResult, isUploadable r = true ↔
      ∃ w, r = .valid w ∧ "no-data" ∉ w.getD []) ∧
    validateCsvContent "id,name,email\n" = .valid (some ["no-data"]) ∧
    isUploadable (validateCsvContent "id,name,email\n") = false ∧
    (∀ w : List String, "no-data" ∉ w → isUploadable (.valid (some w)) = true) := by
  refine ⟨?_, by decide, by decide, ?_⟩
  · intro r
    cases r with
    | valid w =>
      simp [isUploadable]
    | invalid e =>
      simp [isUploadable]
  · intro w hw
    simp [isUploadable, hw]

/-- Witness for C8: a `duplicate-columns`-only warning list does not block
upload. -/
theorem C8_isUploadable_witness :
    isUploadable (.valid (some ["duplicate-columns"])) = true :=
  C8_isUploadable.2.2.2 ["duplicate-columns"] (by decide)

/-! ## Column analyzer (`src/lib/csv-analyzer.ts`)

JS number semantics: the analyzer only ever parses values matching
`/^-?\d+(\.\d+)?$/` (that is what makes a column `number`-typed), and such
decimals of the sizes at hand are exact in doubles, so `parseFloat`,
`Math.min`/`Math.max` and the percentage arithmetic are embedded over `ℚ`.
The host's `Date.parse` composed with `getFullYear` is abstracted as a
parameter `dateParse : String → Option Int` returning the parsed year. -/

/-- Digits-to-value accumulator for decimal digit runs. -/
def parseDigitsNat (cs : List Char) : Nat :=
  cs.foldl (fun n c => n * 10 + (c.toNat - 48)) 0

/-- JS `parseFloat`, restricted to the optional-sign decimal prefixes the
analyzer feeds it (leading whitespace skipped, trailing junk ignored,
exponents not modelled); `none` is `NaN`. -/
def jsParseFloat (s : String) : Option ℚ :=
  let cs0 := s.data.dropWhile Char.isWhitespace
  let neg := match cs0 with
    | '-' :: _ => true
    | _ => false
  let cs := match cs0 with
    | '-' :: r => r
    | '+' :: r => r
    | r => r
  let intPart := cs.takeWhile Char.isDigit
  let rest := cs.drop intPart.length
  let fracPart := match rest with
    | '.' :: r => r.takeWhile Char.isDigit
    | _ => []
  if intPart.isEmpty && fracPart.isEmpty then none
  else
    let mag : ℚ :=
      (parseDigitsNat intPart : ℚ) + (parseDigitsNat fracPart : ℚ) / ((10 : ℚ) ^ fracPart.length)
    some (if neg then -mag else mag)

/-- JS `Math.round` on the (exact) rational: half-up rounding. -/
def jsRound (q : ℚ) : Int := (q + 1/2).floor

/-- Decimal digits of `n`, least significant first; `fuel ≥ n` suffices
(structural fuel so the kernel can evaluate it). -/
def natToRevDigits : Nat → Nat → List Char
  | 0, _ => []
  | fuel + 1, n => if n = 0 then [] else Char.ofNat (48 + n % 10) :: natToRevDigits fuel (n / 10)

/-- Decimal rendering of a natural number. -/
def natToString (n : Nat) : String :=
  if n = 0 then "0" else ⟨(natToRevDigits (n + 1) n).reverse⟩

/-- Decimal rendering of an integer (for the template-string percentage). -/
def intToString : Int → String
  | .ofNat n => natToString n
  | .negSucc n => ⟨'-' :: (natToString (n + 1)).data⟩

/-- `ColumnStats.inferredType`'s value set from `src/lib/csv-analyzer.ts`. -/
inductive InferredType where
  | number
  | boolean
  | string
  | date
  | unknown
deriving DecidableEq, Repr

/-- `ColumnStats` from `src/lib/csv-analyzer.ts` (`numericRange` as a
`min × max` pair). -/
structure ColumnStats where
  name : String
  inferredType : InferredType
  emptyCount : Nat
  totalCount : Nat
  sampleValues : List String
  numericRange : Option (ℚ × ℚ)
  warnings : List String
deriving DecidableEq, Repr

/-- `isPlausibleDate` from `src/lib/csv-analyzer.ts`; `dateParse` abstracts
the host's `Date.parse`/`getFullYear` (the year, or `none` for `NaN`). -/
def isDateLike (dateParse : String → Option Int) (v : String) : Bool :=
  if v.data.length < 8 then false
  else
    match dateParse v with
    | none => false
    | some year => 1900 ≤ year && year ≤ 2100

/-- `inferColumnType` from `src/lib/csv-analyzer.ts`; check order mirrors
the source: number, then boolean, then date, then string. -/
def inferColumnType (dateParse : String → Option Int)
    (nonEmpty : List String) : InferredType :=
  if nonEmpty.isEmpty then .unknown
  else
    let trimmed := nonEmpty.map jsTrim
    if trimmed.all numericLike then .number
    else if trimmed.all booleanLike then .boolean
    else if trimmed.all (isDateLike dateParse) then .date
    else .string

/-- `r[name] ?? ''` on a row record (association list). -/
def lookupField (row : List (String × String)) (name : String) : String :=
  match row.find? (fun p => p.1 == name) with
  | some p => p.2
  | none => ""

/-- `analyzeColumns` from `src/lib/csv-analyzer.ts`.  `[...new Set(l)]` is
`List.eraseDups` (first-seen order); in the `number` branch every non-empty
value matches the numeric pattern, so `jsParseFloat` succeeds on each and
`filterMap` drops nothing (`NaN` cannot arise there). -/
def analyzeColumns (dateParse : String → Option Int)
    (columns : List String) (rows : List (List (String × String))) : List ColumnStats :=
  columns.map (fun name =>
    let values := rows.map (fun r => lookupField r name)
    let nonEmpty := values.filter (fun v => (jsTrim v) != "")
    let emptyCount := values.length - nonEmpty.length
    let totalCount := values.length
    let inferredType := inferColumnType dateParse nonEmpty
    let uniqueSamples := nonEmpty.eraseDups.take 5
    let numericRange : Option (ℚ × ℚ) :=
      if inferredType = .number ∧ 0 < nonEmpty.length then
        match nonEmpty.filterMap jsParseFloat with
        | [] => none
        | x :: xs => some (xs.foldl min x, xs.foldl max x)
      else none
    let warnings :=
      if 0 < totalCount ∧ (1 : ℚ)/5 < (emptyCount : ℚ) / (totalCount : ℚ) then
        [intToString (jsRound (((emptyCount : ℚ) / (totalCount : ℚ)) * 100)) ++
          "% of values are empty"]
      else []
    { name := name, inferredType := inferredType, emptyCount := emptyCount,
      totalCount := totalCount, sampleValues := uniqueSamples,
      numericRange := numericRange, warnings := warnings })

/-- C9: the column `["100.50","200","-30.5"]` infers `number` with range
`min = -30.5`, `max = 200`; a column with 3 of 4 values empty yields
`emptyCount = 3` and the `75%` empty-ratio warning; and the warning is
produced exactly when `emptyCount/totalCount` strictly exceeds `1/5`. -/
theorem C9_analyzer (dateParse : String → Option Int) :
    analyzeColumns dateParse ["amount"]
        [[("amount", "100.50")], [("amount", "200")], [("amount", "-30.5")]] =
      [{ name := "amount", inferredType := .number, emptyCount := 0, totalCount := 3,
         sampleValues := ["100.50", "200", "-30.5"],
         numericRange := some (-(30.5 : ℚ), (200 : ℚ)), warnings := [] }] ∧
    analyzeColumns dateParse ["c"]
        [[("c", "")], [("c", "a")], [("c", "")], [("c", "")]] =
      [{ name := "c", inferredType := .string, emptyCount := 3, totalCount := 4,
         sampleValues := ["a"], numericRange := none,
         warnings := ["75% of values are empty"] }] ∧
    (∀ columns rows s, s ∈ analyzeColumns dateParse columns rows →
      (s.warnings ≠ [] ↔
        0 < s.totalCount ∧ (1 : ℚ)/5 < (s.emptyCount : ℚ) / (s.totalCount : ℚ))) := by
  refine ⟨by with_unfolding_all rfl, by with_unfolding_all rfl, ?_⟩
  intro columns rows s hs
  simp only [analyzeColumns, List.mem_map] at hs
  obtain ⟨name, -, rfl⟩ := hs
  dsimp only
  by_cases h : 0 < (rows.map (fun r => lookupField r name)).length ∧
      (1 : ℚ)/5 <
        (((rows.map (fun r => lookupField r name)).length -
          ((rows.map (fun r => lookupField r name)).filter
            (fun v => (jsTrim v) != "")).length : Nat) : ℚ) /
          (((rows.map (fun r => lookupField r name)).length : Nat) : ℚ)
  · simp [h]
  · simp [h]

/-- The stats of the 3-of-4-empty column, for the C9 witness. -/
def threeOfFourStats : ColumnStats :=
  { name := "c", inferredType := .string, emptyCount := 3, totalCount := 4,
    sampleValues := ["a"], numericRange := none,
    warnings := ["75% of values are empty"] }

/-- Witness for C9's quantified part, at the 3-of-4-empty column. -/
theorem C9_analyzer_witness :
    threeOfFourStats.warnings ≠ [] ↔
      0 < threeOfFourStats.totalCount ∧
      (1 : ℚ)/5 <
        (threeOfFourStats.emptyCount : ℚ) / (threeOfFourStats.totalCount : ℚ) := by
  have hmem : threeOfFourStats ∈
      analyzeColumns (fun _ => none) ["c"]
        [[("c", "")], [("c", "a")], [("c", "")], [("c", "")]] := by
    rw [(C9_analyzer (fun _ => none)).2.1]
    exact List.mem_singleton.mpr rfl
  exact (C9_analyzer (fun _ => none)).2.2 ["c"]
    [[("c", "")], [("c", "a")], [("c", "")], [("c", "")]] _ hmem

/-! ## File-level validation (`validateCsvFile` in `src/lib/csv-validator.ts`) -/

/-- The `U+FFFD` replacement character emitted for invalid byte sequences. -/
def replChar : Char := Char.ofNat 0xFFFD

/-- Is `b` a UTF-8 continuation byte? -/
def isContByte (b : Nat) : Bool := 128 ≤ b && b ≤ 191

/-- UTF-8 decoding of a byte sequence with `U+FFFD` replacement on invalid
sequences, as the browser's `Blob.text()` (WHATWG `TextDecoder`) performs.
Simplifications that do not affect the head-only property: an invalid
sequence's bytes are consumed (not reconsumed as WHATWG resynchronisation
does), and overlong/out-of-range code points go through `Char.ofNat`'s
validity check. -/
def utf8DecodeList : List Nat → List Char
  | [] => []
  | b :: rest =>
    if b < 128 then Char.ofNat b :: utf8DecodeList rest
    else if 194 ≤ b && b ≤ 223 then
      match rest with
      | b1 :: rest' =>
        if isContByte b1 then
          Char.ofNat ((b - 192) * 64 + (b1 - 128)) :: utf8DecodeList rest'
        else replChar :: utf8DecodeList rest'
      | [] => [replChar]
    else if 224 ≤ b && b ≤ 239 then
      match rest with
      | b1 :: b2 :: rest' =>
        if isContByte b1 && isContByte b2 then
          Char.ofNat ((b - 224) * 4096 + (b1 - 128) * 64 + (b2 - 128)) ::
            utf8DecodeList rest'
        else replChar :: utf8DecodeList rest'
      | _ :: rest' => replChar :: utf8DecodeList rest'
      | [] => [replChar]
    else if 240 ≤ b && b ≤ 244 then
      match rest with
      | b1 :: b2 :: b3 :: rest' =>
        if isContByte b1 && isContByte b2 && isContByte b3 then
          Char.ofNat ((b - 240) * 262144 + (b1 - 128) * 4096 +
            (b2 - 128) * 64 + (b3 - 128)) :: utf8DecodeList rest'
        else replChar :: utf8DecodeList rest'
      | _ :: rest' => replChar :: utf8DecodeList rest'
      | [] => [replChar]
    else replChar :: utf8DecodeList rest

/-- Decode a byte list to text. -/
def utf8DecodeBytes (bs : List Nat) : String := ⟨utf8DecodeList bs⟩

/-- A browser `File` as `validateCsvFile` consumes it: name, MIME type and
raw byte content (`file.slice` slices bytes; `.text()` decodes UTF-8). -/
structure JsFile where
  name : String
  type : String
  content : List Nat
deriving DecidableEq, Repr

/-- `HEAD_SIZE` from `src/lib/csv-validator.ts`. -/
def HEAD_SIZE : Nat := 8192

/-- `validateCsvFile` from `src/lib/csv-validator.ts`:
`validateCsvContent(await file.slice(0, HEAD_SIZE).text())`. -/
def validateCsvFile (f : JsFile) : CsvValidationResult :=
  validateCsvContent (utf8DecodeBytes (f.content.take HEAD_SIZE))

/-- C10: the verdict of `validateCsvFile` depends only on the first 8192
bytes — two files whose first 8192 bytes decode to the same text get
identical results, whatever their remaining contents or sizes. -/
theorem C10_head_only (f g : JsFile)
    (h : utf8DecodeBytes (f.content.take HEAD_SIZE) =
      utf8DecodeBytes (g.content.take HEAD_SIZE)) :
    validateCsvFile f = validateCsvFile g := by
  unfold validateCsvFile
  rw [h]

/-- The bytes of an ASCII string. -/
def strBytes (s : String) : List Nat := s.data.map Char.toNat

/-- A shared 8192-byte head: a small CSV followed by `'0'` padding. -/
def sharedHead : List Nat := strBytes "id,name\n1,2\n" ++ List.replicate 8180 48

/-- Witness for C10: two files that agree on their first 8192 bytes but
differ in the byte after (and in name), validated identically. -/
theorem C10_head_only_witness :
    validateCsvFile ⟨"a.csv", "text/csv", sharedHead ++ [49]⟩ =
      validateCsvFile ⟨"b.csv", "text/csv", sharedHead ++ [50]⟩ := by
  have hlen : sharedHead.length = HEAD_SIZE := by
    have h12 : (strBytes "id,name\n1,2\n").length = 12 := by decide
    unfold sharedHead HEAD_SIZE
    rw [List.length_append, List.length_replicate, h12]
  have htake : ∀ t : List Nat, (sharedHead ++ t).take HEAD_SIZE = sharedHead := by
    intro t
    rw [← hlen, List.take_left]
  exact C10_head_only _ _ (by rw [htake, htake])

end LargeUpload
